import Mathlib

/-!
Shallow embedding of the reverse-sync job (reverse-sync.mjs) of the
holytea-inventory-sync repository, and theorems checking the specification
claims about it.  The job scans a Google-Sheets snapshot for rows whose
desired quantity differs from the last known platform quantity, pushes the
desired quantity to Shopify under a compare-and-swap precondition with one
staleness-triggered retry, and writes the per-row outcomes back in two
batch calls.
-/

set_option maxHeartbeats 1000000

namespace ReverseSync

/-- A finite JS number, modelled as an exact decimal rational
mant / 10 ^ exp10.  Sheet cell data and the run configuration only carry
decimal-literal values, so this representation is exact for them. -/
structure JsNum where
  mant : Int
  exp10 : Nat
deriving DecidableEq

/-- The JS number with the value of a natural number. -/
def JsNum.ofNat (n : Nat) : JsNum :=
  ⟨(n : Int), 0⟩

/-- A spreadsheet cell value as returned with UNFORMATTED_VALUE: absent
(JS null or undefined), a string, or a number. -/
inductive CellVal where
  | empty : CellVal
  | str : String → CellVal
  | num : JsNum → CellVal
deriving DecidableEq

/-- Models the JS String.prototype.trim: strip leading and trailing
whitespace. -/
def jsTrim (s : String) : String :=
  ⟨((s.data.dropWhile Char.isWhitespace).reverse.dropWhile Char.isWhitespace).reverse⟩

/-- Numeric value of a list of decimal digit characters. -/
def digitsVal (l : List Char) : Nat :=
  l.foldl (fun a c => a * 10 + (c.toNat - 48)) 0

/-- Parses an unsigned JS decimal number literal: digits, digits.digits,
digits followed by a dot, or a dot followed by digits. -/
def parseUnsigned (l : List Char) : Option JsNum :=
  let ip := l.takeWhile Char.isDigit
  let rest := l.dropWhile Char.isDigit
  match rest with
  | [] => if ip.isEmpty then none else some ⟨(digitsVal ip : Int), 0⟩
  | '.' :: fp =>
    if fp.all Char.isDigit && (!ip.isEmpty || !fp.isEmpty) then
      some ⟨(digitsVal ip : Int) * (10 : Int) ^ fp.length + (digitsVal fp : Int), fp.length⟩
    else none
  | _ => none

/-- Models the JS Number() conversion of a trimmed string.  The modelled
grammar is the signed decimal literals that occur as sheet cell data; hex,
binary, octal, exponent and Infinity forms are outside it and map to none,
exactly as NaN does, so none stands for a non-finite result.  The empty
string converts to 0, as Number() does. -/
def jsNumberOfString (s : String) : Option JsNum :=
  match s.data with
  | [] => some ⟨0, 0⟩
  | '+' :: rest => parseUnsigned rest
  | '-' :: rest => (parseUnsigned rest).map (fun j => ⟨-j.mant, j.exp10⟩)
  | l => parseUnsigned l

/-- Math.trunc: truncation toward zero (Int.tdiv is T-division, and the
denominator 10 ^ exp10 is positive). -/
def jsTrunc (j : JsNum) : Int :=
  j.mant.tdiv ((10 : Int) ^ j.exp10)

/-- Translation of normalizeInt (reverse-sync.mjs lines 38 to 45): null and
undefined give null; otherwise the value is stringified, trimmed, rejected
when empty, converted with Number(), rejected when not finite, and truncated
with Math.trunc.  For a numeric cell, String() followed by Number() round
trips the finite number, so the cell value itself is truncated. -/
def normalizeInt (value : CellVal) : Option Int :=
  match value with
  | CellVal.empty => none
  | CellVal.num q => some (jsTrunc q)
  | CellVal.str s =>
    let t := jsTrim s
    if t = "" then none
    else
      match jsNumberOfString t with
      | none => none
      | some q => some (jsTrunc q)

/-- Translation of the inventory-item-id read of the scan loop
(reverse-sync.mjs lines 200 and 202): row[9] is kept when truthy, then
stringified and trimmed, and the row is skipped when the result is falsy
(empty).  A numeric id cell is truthy when nonzero; its rendering is a
nonempty digit string, abstracted here with the mantissa rendering, which
never yields a blank string, so only nonzero-ness matters. -/
def itemIdOfCell (v : CellVal) : Option String :=
  match v with
  | CellVal.empty => none
  | CellVal.num q =>
    if q.mant = 0 then none
    else
      let t := jsTrim (toString q.mant)
      if t = "" then none else some t
  | CellVal.str s =>
    if s = "" then none
    else
      let t := jsTrim s
      if t = "" then none else some t

/-- One sync candidate, as accumulated by the scan loop
(reverse-sync.mjs lines 206 to 211). -/
structure Candidate where
  rowIndex1Based : Nat
  inventoryItemId : String
  desired : Int
  available : Int
deriving DecidableEq

/-- Translation of one iteration of the candidate scan loop
(reverse-sync.mjs lines 195 to 205): the row at 0-based sheet-array index i
is a candidate when its id cell (column J, index 9) is present, both its
desired (column E, index 4) and available (column F, index 5) cells
normalize to integers, and the two integers differ. -/
def candidateOfRow (i : Nat) (row : List CellVal) : Option Candidate :=
  let desired := normalizeInt (row.getD 4 CellVal.empty)
  let available := normalizeInt (row.getD 5 CellVal.empty)
  match itemIdOfCell (row.getD 9 CellVal.empty) with
  | none => none
  | some gid =>
    match desired, available with
    | some d, some a => if d ≠ a then some ⟨i + 1, gid, d, a⟩ else none
    | _, _ => none

/-- The JS comparison candidates.length >= CONFIG.maxRowsPerRun, where the
configured maximum is a JS number: none models NaN, for which the
comparison is false.  For a finite maximum the comparison multiplies out
the decimal denominator. -/
def jsGe (n : Nat) (m : Option JsNum) : Bool :=
  match m with
  | none => false
  | some j => decide (j.mant ≤ (n : Int) * (10 : Int) ^ j.exp10)

/-- The candidate scan loop without the per-run maximum: every eligible row
in row order. -/
def scanAll : List (List CellVal) → Nat → List Candidate
  | [], _ => []
  | row :: rest, i =>
    match candidateOfRow i row with
    | none => scanAll rest (i + 1)
    | some c => c :: scanAll rest (i + 1)

/-- Translation of the candidate scan loop (reverse-sync.mjs lines 194 to
214): rows are visited in order starting at sheet-array index 1; after a
candidate is pushed the loop breaks when the accumulated count reaches the
configured maximum.  The len argument is the count accumulated so far. -/
def scanLoop (max : Option JsNum) : Nat → List (List CellVal) → Nat → List Candidate
  | _, [], _ => []
  | len, row :: rest, i =>
    match candidateOfRow i row with
    | none => scanLoop max len rest (i + 1)
    | some c =>
      if jsGe (len + 1) max then [c]
      else c :: scanLoop max (len + 1) rest (i + 1)

/-- The candidate scan of main: the header row (index 0) is skipped and the
loop starts at index 1 with an empty accumulator. -/
def scanCandidates (max : Option JsNum) (grid : List (List CellVal)) : List Candidate :=
  scanLoop max 0 (grid.drop 1) 1

/-- The number of eligible rows of a snapshot, ignoring the per-run
maximum. -/
def countEligible (grid : List (List CellVal)) : Nat :=
  (scanAll (grid.drop 1) 1).length

/-- A Shopify userError object as returned by inventorySetQuantities
(code, field, message), each modelled as a string. -/
structure UserError where
  code : String
  field : String
  message : String
deriving DecidableEq

/-- Models the JSON.stringify rendering of one userError. -/
def jsonOfUserError (e : UserError) : String :=
  "\x7b\"code\":\"" ++ e.code ++ "\",\"field\":\"" ++ e.field ++
    "\",\"message\":\"" ++ e.message ++ "\"\x7d"

/-- Models the JSON.stringify rendering of a userError array. -/
def jsonOfUserErrors (l : List UserError) : String :=
  "[" ++ String.intercalate "," (l.map jsonOfUserError) ++ "]"

/-- The message of the error thrown on terminal userErrors
(reverse-sync.mjs line 165): the stringified array sliced to 500
characters. -/
def userErrorsMessage (l : List UserError) : String :=
  "Shopify userErrors: " ++ (jsonOfUserErrors l).take 500

/-- The platform behaviour observed for one inventory item at the
configured location during a run.  attempt models one
inventorySetQuantities call of runOnce as a function of the requested
quantity and the compareQuantity precondition: an error result stands for
a thrown HTTP or GraphQL transport failure, an ok result carries the
returned userErrors array.  current models getCurrentAvailableQuantity
(reverse-sync.mjs lines 93 to 100): an error result stands for a thrown
failure, including an unreadable quantity. -/
structure ItemPlatform where
  attempt : Int → Int → Except String (List UserError)
  current : Except String Int

/-- The sheet columns the job touches, with the letters of CONFIG.col
(reverse-sync.mjs lines 9 to 16): desired E, available F, status G,
lastPushedAt H, lastError I, inventoryItemId J. -/
inductive Col where
  | desired | available | status | lastPushedAt | lastError | inventoryItemId
deriving DecidableEq

/-- The 0-based index of a column in a row value array, matching the
letters E to J used in the A1 range strings. -/
def colIndex : Col → Nat
  | Col.desired => 4
  | Col.available => 5
  | Col.status => 6
  | Col.lastPushedAt => 7
  | Col.lastError => 8
  | Col.inventoryItemId => 9

/-- One single-cell write of a batchUpdate request: the column, the 1-based
sheet row from the A1 range string, and the written string value. -/
structure Write where
  col : Col
  row1 : Nat
  value : String
deriving DecidableEq

/-- An observable effect of the run: a conditional-set attempt against the
platform, a re-read of the current platform quantity, or one bulk
write-back call to the sheet. -/
inductive Event where
  | attempt : String → Int → Int → Event
  | readCurrent : String → Event
  | batchWrite : List Write → Event
deriving DecidableEq

/-- Translation of shopifyInventorySetAvailable (reverse-sync.mjs lines 119
to 169), for one item against its observed platform behaviour, returning
the thrown-or-ok outcome together with the platform calls made.  Attempt
one uses the sheet-known compareQuantity; when its userErrors contain code
COMPARE_QUANTITY_STALE the current platform quantity is re-read and the
set is retried exactly once with it; any remaining userErrors are thrown.
The source checks userErrors.length before searching for the stale code;
find on an empty array is none, so the two shapes agree. -/
def shopifyInventorySetAvailable (p : ItemPlatform) (inventoryItemId locationId : String)
    (quantity compareQuantity : Int) : Except String Unit × List Event :=
  match p.attempt quantity compareQuantity with
  | Except.error e => (Except.error e, [Event.attempt inventoryItemId quantity compareQuantity])
  | Except.ok userErrors =>
    match userErrors.find? (fun e => e.code == "COMPARE_QUANTITY_STALE") with
    | some _ =>
      match p.current with
      | Except.error e =>
        (Except.error e,
          [Event.attempt inventoryItemId quantity compareQuantity,
           Event.readCurrent inventoryItemId])
      | Except.ok current =>
        match p.attempt quantity current with
        | Except.error e =>
          (Except.error e,
            [Event.attempt inventoryItemId quantity compareQuantity,
             Event.readCurrent inventoryItemId,
             Event.attempt inventoryItemId quantity current])
        | Except.ok ue2 =>
          if ue2.isEmpty then
            (Except.ok (),
              [Event.attempt inventoryItemId quantity compareQuantity,
               Event.readCurrent inventoryItemId,
               Event.attempt inventoryItemId quantity current])
          else
            (Except.error (userErrorsMessage ue2),
              [Event.attempt inventoryItemId quantity compareQuantity,
               Event.readCurrent inventoryItemId,
               Event.attempt inventoryItemId quantity current])
    | none =>
      if userErrors.isEmpty then
        (Except.ok (), [Event.attempt inventoryItemId quantity compareQuantity])
      else
        (Except.error (userErrorsMessage userErrors),
          [Event.attempt inventoryItemId quantity compareQuantity])

/-- The run configuration CONFIG (reverse-sync.mjs lines 4 to 23), as built
from the environment. -/
structure Config where
  spreadsheetId : String
  sheetName : String
  maxRowsPerRun : Option JsNum
  shopDomain : String
  locationId : String
  token : String

/-- The row mutations recorded on a successful push
(reverse-sync.mjs lines 244 to 249): clear status, set lastPushedAt to the
current time, clear lastError, clear desiredAvailable. -/
def successWrites (c : Candidate) (now : String) : List Write :=
  [⟨Col.status, c.rowIndex1Based, ""⟩,
   ⟨Col.lastPushedAt, c.rowIndex1Based, now⟩,
   ⟨Col.lastError, c.rowIndex1Based, ""⟩,
   ⟨Col.desired, c.rowIndex1Based, ""⟩]

/-- The row mutations recorded on a failed push
(reverse-sync.mjs lines 255 to 258): status ERROR and the thrown message
sliced to 450 characters into lastError. -/
def errorWrites (c : Candidate) (msg : String) : List Write :=
  [⟨Col.status, c.rowIndex1Based, "ERROR"⟩,
   ⟨Col.lastError, c.rowIndex1Based, msg.take 450⟩]

/-- The outcome writes of one candidate (reverse-sync.mjs lines 235 to
262): the per-candidate try block pushes the success records, the catch
block pushes the error records. -/
def outcomeFor (cfg : Config) (p : String → ItemPlatform) (now : String)
    (c : Candidate) : List Write :=
  match (shopifyInventorySetAvailable (p c.inventoryItemId) c.inventoryItemId cfg.locationId
      c.desired c.available).1 with
  | Except.ok _ => successWrites c now
  | Except.error e => errorWrites c e

/-- The platform calls made while processing one candidate. -/
def eventsFor (cfg : Config) (p : String → ItemPlatform) (c : Candidate) : List Event :=
  (shopifyInventorySetAvailable (p c.inventoryItemId) c.inventoryItemId cfg.locationId
    c.desired c.available).2

/-- The PENDING batch (reverse-sync.mjs lines 221 to 231): one status write
per candidate. -/
def pendingOf (cands : List Candidate) : List Write :=
  cands.map (fun c => ⟨Col.status, c.rowIndex1Based, "PENDING"⟩)

/-- All outcome writes of a run, in candidate order
(reverse-sync.mjs lines 234 to 262). -/
def outcomesOf (cfg : Config) (p : String → ItemPlatform) (now : String)
    (cands : List Candidate) : List Write :=
  cands.flatMap (outcomeFor cfg p now)

/-- All platform calls of a run, in candidate order. -/
def eventsOf (cfg : Config) (p : String → ItemPlatform) (cands : List Candidate) : List Event :=
  cands.flatMap (eventsFor cfg p)

/-- The result of one run: the selected candidates, the PENDING batch, the
outcome batch, and the ordered observable effects. -/
structure RunResult where
  candidates : List Candidate
  pendingWrites : List Write
  outcomeWrites : List Write
  events : List Event
deriving DecidableEq

/-- Translation of the body of main after the environment preflight
(reverse-sync.mjs lines 177 to 273): fewer than two rows ends the run; an
empty candidate list ends the run; otherwise the PENDING batch is written,
each candidate is pushed in order accumulating outcome records, and the
outcome batch is written.  The two batchUpdate calls and the per-candidate
platform calls are recorded as events in order. -/
def runMain (cfg : Config) (p : String → ItemPlatform) (now : String)
    (grid : List (List CellVal)) : RunResult :=
  if grid.length < 2 then ⟨[], [], [], []⟩
  else
    let candidates := scanCandidates cfg.maxRowsPerRun grid
    if candidates = [] then ⟨candidates, [], [], []⟩
    else
      ⟨candidates,
       pendingOf candidates,
       outcomesOf cfg p now candidates,
       Event.batchWrite (pendingOf candidates) ::
         (eventsOf cfg p candidates ++ [Event.batchWrite (outcomesOf cfg p now candidates)])⟩

/-- Translation of requireEnv (reverse-sync.mjs lines 25 to 29): a missing
or empty (falsy) variable throws. -/
def requireEnv (env : String → Option String) (name : String) : Except String String :=
  match env name with
  | none => Except.error ("Missing env var: " ++ name)
  | some v => if v = "" then Except.error ("Missing env var: " ++ name) else Except.ok v

/-- The preflight of main (reverse-sync.mjs lines 172 to 175): the four
required variables are checked in order before the sheet is read. -/
def preflight (env : String → Option String) : Except String Unit :=
  match requireEnv env "SPREADSHEET_ID" with
  | Except.error e => Except.error e
  | Except.ok _ =>
    match requireEnv env "SHOPIFY_STORE_DOMAIN" with
    | Except.error e => Except.error e
    | Except.ok _ =>
      match requireEnv env "SHOPIFY_LOCATION_ID" with
      | Except.error e => Except.error e
      | Except.ok _ =>
        match requireEnv env "SHOPIFY_ADMIN_TOKEN" with
        | Except.error e => Except.error e
        | Except.ok _ => Except.ok ()

/-- The JS expression (v || d) for an optional environment string: the
default replaces an absent or empty value. -/
def jsOrDefault (v : Option String) (d : String) : String :=
  match v with
  | none => d
  | some s => if s = "" then d else s

/-- CONFIG as evaluated from the environment (reverse-sync.mjs lines 4 to
23): SHEET_NAME defaults to Truth_Table, MAX_ROWS_PER_RUN defaults to the
string 50 and is converted with Number(), which itself trims; raw
identifiers default to the empty rendering of undefined. -/
def configOfEnv (env : String → Option String) : Config :=
  { spreadsheetId := (env "SPREADSHEET_ID").getD ""
  , sheetName := jsOrDefault (env "SHEET_NAME") "Truth_Table"
  , maxRowsPerRun := jsNumberOfString (jsTrim (jsOrDefault (env "MAX_ROWS_PER_RUN") "50"))
  , shopDomain := (env "SHOPIFY_STORE_DOMAIN").getD ""
  , locationId := (env "SHOPIFY_LOCATION_ID").getD ""
  , token := (env "SHOPIFY_ADMIN_TOKEN").getD "" }

/-- The whole of main (reverse-sync.mjs lines 171 to 274): the preflight
throws before the sheet is read, otherwise the run proceeds with the
environment-derived configuration. -/
def mainRun (env : String → Option String) (p : String → ItemPlatform) (now : String)
    (grid : List (List CellVal)) : Except String RunResult :=
  match preflight env with
  | Except.error e => Except.error e
  | Except.ok _ => Except.ok (runMain (configOfEnv env) p now grid)

/-- Sets position n of a row value array to v, padding with empty cells
when the row is shorter, as a sheet write to a cell beyond the stored row
extent does. -/
def rowSet : List CellVal → Nat → CellVal → List CellVal
  | [], 0, v => [v]
  | [], Nat.succ n, v => CellVal.empty :: rowSet [] n v
  | _ :: xs, 0, v => v :: xs
  | x :: xs, Nat.succ n, v => x :: rowSet xs n v

/-- Sets the cell at 0-based row r and column c of a snapshot. -/
def gridSetCell (grid : List (List CellVal)) (r c : Nat) (v : CellVal) :
    List (List CellVal) :=
  grid.set r (rowSet (grid.getD r []) c v)

/-- Applies one batched write to a snapshot: the A1 range row is 1-based,
the stored value is the raw written string. -/
def applyWrite (grid : List (List CellVal)) (w : Write) : List (List CellVal) :=
  gridSetCell grid (w.row1 - 1) (colIndex w.col) (CellVal.str w.value)

/-- Applies a write sequence in order. -/
def applyWrites (grid : List (List CellVal)) (ws : List Write) : List (List CellVal) :=
  ws.foldl applyWrite grid

/-- The value of the last write of a sequence targeting 0-based row r and
column c, when any: later writes override earlier ones. -/
def lastWriteTo : List Write → Nat → Nat → Option String
  | [], _, _ => none
  | w :: ws, r, c =>
    match lastWriteTo ws r c with
    | some v => some v
    | none => if w.row1 - 1 = r ∧ colIndex w.col = c then some w.value else none

/-- The cell at 0-based row r and column c of a snapshot, empty when out of
range. -/
def cellOf (grid : List (List CellVal)) (r c : Nat) : CellVal :=
  (grid.getD r []).getD c CellVal.empty

lemma candidateOfRow_rowIndex {i : Nat} {row : List CellVal} {c : Candidate}
    (h : candidateOfRow i row = some c) : c.rowIndex1Based = i + 1 := by
  simp only [candidateOfRow] at h
  split at h
  · exact Option.noConfusion h
  · split at h
    · split at h
      · cases h
        rfl
      · exact Option.noConfusion h
    · exact Option.noConfusion h

lemma candidateOfRow_congr {row row' : List CellVal} (i : Nat)
    (h4 : row.getD 4 CellVal.empty = row'.getD 4 CellVal.empty)
    (h5 : row.getD 5 CellVal.empty = row'.getD 5 CellVal.empty)
    (h9 : row.getD 9 CellVal.empty = row'.getD 9 CellVal.empty) :
    candidateOfRow i row = candidateOfRow i row' := by
  simp only [candidateOfRow, h4, h5, h9]

lemma scanAll_mem_iff {c : Candidate} :
    ∀ (rows : List (List CellVal)) (i : Nat),
      c ∈ scanAll rows i ↔
        ∃ k, k < rows.length ∧ candidateOfRow (i + k) (rows.getD k []) = some c := by
  intro rows
  induction rows with
  | nil => intro i; simp [scanAll]
  | cons row rest ih =>
    intro i
    simp only [scanAll]
    cases hcr : candidateOfRow i row with
    | none =>
      rw [ih (i + 1)]
      constructor
      · rintro ⟨k, hk, hck⟩
        refine ⟨k + 1, by simpa using Nat.succ_lt_succ hk, ?_⟩
        have he : i + (k + 1) = i + 1 + k := by omega
        rw [List.getD_cons_succ, he]
        exact hck
      · rintro ⟨k, hk, hck⟩
        cases k with
        | zero =>
          rw [List.getD_cons_zero, Nat.add_zero, hcr] at hck
          exact Option.noConfusion hck
        | succ k =>
          refine ⟨k, by simp only [List.length_cons] at hk; omega, ?_⟩
          have he : i + 1 + k = i + (k + 1) := by omega
          rw [List.getD_cons_succ] at hck
          rw [he]
          exact hck
    | some c0 =>
      simp only [List.mem_cons]
      rw [ih (i + 1)]
      constructor
      · rintro (rfl | ⟨k, hk, hck⟩)
        · exact ⟨0, by simp, by simpa using hcr⟩
        · refine ⟨k + 1, by simpa using Nat.succ_lt_succ hk, ?_⟩
          have he : i + (k + 1) = i + 1 + k := by omega
          rw [List.getD_cons_succ, he]
          exact hck
      · rintro ⟨k, hk, hck⟩
        cases k with
        | zero =>
          rw [List.getD_cons_zero, Nat.add_zero, hcr] at hck
          left
          exact (Option.some.injEq _ _ ▸ hck).symm
        | succ k =>
          right
          refine ⟨k, by simp only [List.length_cons] at hk; omega, ?_⟩
          have he : i + 1 + k = i + (k + 1) := by omega
          rw [List.getD_cons_succ] at hck
          rw [he]
          exact hck

lemma scanAll_row_ge {c : Candidate} :
    ∀ (rows : List (List CellVal)) (i : Nat), c ∈ scanAll rows i →
      i + 1 ≤ c.rowIndex1Based := by
  intro rows i h
  obtain ⟨k, _, hck⟩ := (scanAll_mem_iff rows i).mp h
  have := candidateOfRow_rowIndex hck
  omega

lemma scanAll_pairwise :
    ∀ (rows : List (List CellVal)) (i : Nat),
      (scanAll rows i).Pairwise (fun a b => a.rowIndex1Based < b.rowIndex1Based) := by
  intro rows
  induction rows with
  | nil => intro i; simp [scanAll]
  | cons row rest ih =>
    intro i
    simp only [scanAll]
    cases hcr : candidateOfRow i row with
    | none => exact ih (i + 1)
    | some c0 =>
      refine List.Pairwise.cons ?_ (ih (i + 1))
      intro b hb
      have h1 := candidateOfRow_rowIndex hcr
      have h2 := scanAll_row_ge rest (i + 1) hb
      omega

lemma scanLoop_sublist (max : Option JsNum) :
    ∀ (rows : List (List CellVal)) (len i : Nat),
      (scanLoop max len rows i).Sublist (scanAll rows i) := by
  intro rows
  induction rows with
  | nil => intro len i; simp [scanLoop, scanAll]
  | cons row rest ih =>
    intro len i
    simp only [scanLoop, scanAll]
    cases candidateOfRow i row with
    | none => exact ih len (i + 1)
    | some c =>
      by_cases hb : jsGe (len + 1) max
      · simp only [hb, if_true]
        exact (List.nil_sublist _).cons₂ c
      · simp only [hb, if_false]
        exact (ih (len + 1) (i + 1)).cons₂ c

lemma jsGe_ofNat (n m : Nat) : jsGe n (some (JsNum.ofNat m)) = decide (m ≤ n) := by
  simp [jsGe, JsNum.ofNat, Int.ofNat_le]

lemma scanLoop_eq_scanAll {m : Nat} :
    ∀ (rows : List (List CellVal)) (len i : Nat),
      (scanAll rows i).length + len ≤ m →
      scanLoop (some (JsNum.ofNat m)) len rows i = scanAll rows i := by
  intro rows
  induction rows with
  | nil => intro len i _; rfl
  | cons row rest ih =>
    intro len i h
    simp only [scanLoop, scanAll] at h ⊢
    cases hcr : candidateOfRow i row with
    | none =>
      rw [hcr] at h
      exact ih len (i + 1) h
    | some c =>
      rw [hcr] at h
      rw [jsGe_ofNat]
      simp only [List.length_cons] at h
      by_cases hb : m ≤ len + 1
      · have hz : (scanAll rest (i + 1)).length = 0 := by omega
        rw [List.length_eq_zero.mp hz]
        simp [hb]
      · have hrec := ih (len + 1) (i + 1) (by omega)
        simp only [decide_eq_true_eq]
        rw [if_neg hb, hrec]

lemma scanLoop_take {m : Nat} :
    ∀ (rows : List (List CellVal)) (len i : Nat), len < m →
      scanLoop (some (JsNum.ofNat m)) len rows i = (scanAll rows i).take (m - len) := by
  intro rows
  induction rows with
  | nil => intro len i _; simp [scanLoop, scanAll]
  | cons row rest ih =>
    intro len i hlen
    simp only [scanLoop, scanAll]
    cases hcr : candidateOfRow i row with
    | none => exact ih len (i + 1) hlen
    | some c =>
      rw [jsGe_ofNat]
      simp only [decide_eq_true_eq]
      by_cases hb : m ≤ len + 1
      · have h1 : m - len = 1 := by omega
        rw [if_pos hb, h1]
        simp
      · have h2 : m - len = (m - (len + 1)) + 1 := by omega
        rw [if_neg hb, ih (len + 1) (i + 1) (by omega), h2, List.take_succ_cons]

lemma getD_drop_one (l : List (List CellVal)) (k : Nat) :
    (l.drop 1).getD k [] = l.getD (k + 1) [] := by
  cases l with
  | nil => simp [List.getD]
  | cons a t => simp [List.getD_cons_succ]

lemma scanCandidates_mem {max : Option JsNum} {grid : List (List CellVal)} {c : Candidate}
    (h : c ∈ scanCandidates max grid) : c ∈ scanAll (grid.drop 1) 1 :=
  (scanLoop_sublist max (grid.drop 1) 0 1).subset h

lemma scanCandidates_pairwise (max : Option JsNum) (grid : List (List CellVal)) :
    (scanCandidates max grid).Pairwise (fun a b => a.rowIndex1Based < b.rowIndex1Based) :=
  (scanAll_pairwise (grid.drop 1) 1).sublist (scanLoop_sublist max (grid.drop 1) 0 1)

lemma scanCandidates_row_facts {max : Option JsNum} {grid : List (List CellVal)} {c : Candidate}
    (h : c ∈ scanCandidates max grid) :
    2 ≤ c.rowIndex1Based ∧ c.rowIndex1Based - 1 < grid.length ∧
      candidateOfRow (c.rowIndex1Based - 1) (grid.getD (c.rowIndex1Based - 1) []) = some c := by
  obtain ⟨k, hk, hck⟩ := (scanAll_mem_iff (grid.drop 1) 1).mp (scanCandidates_mem h)
  have hr := candidateOfRow_rowIndex hck
  have hlen : grid.length = (grid.drop 1).length + 1 := by
    cases grid with
    | nil => simp at hk
    | cons a t => simp
  refine ⟨by omega, by omega, ?_⟩
  have he : c.rowIndex1Based - 1 = k + 1 := by omega
  have h1k : 1 + k = k + 1 := by omega
  rw [h1k] at hck
  rw [he, ← getD_drop_one]
  exact hck

/-- Overlays an optional written value on a cell. -/
def overlay (o : Option String) (v : CellVal) : CellVal :=
  match o with
  | some s => CellVal.str s
  | none => v

lemma rowSet_getD : ∀ (n : Nat) (row : List CellVal) (v : CellVal) (k : Nat),
    (rowSet row n v).getD k CellVal.empty =
      if k = n then v else row.getD k CellVal.empty := by
  intro n
  induction n with
  | zero =>
    intro row v k
    cases row <;> cases k <;> simp [rowSet, List.getD]
  | succ n ih =>
    intro row v k
    cases row with
    | nil =>
      cases k with
      | zero => simp [rowSet, List.getD]
      | succ k => simpa [rowSet, List.getD_cons_succ, List.getD] using ih [] v k
    | cons x xs =>
      cases k with
      | zero => simp [rowSet, List.getD]
      | succ k => simpa [rowSet, List.getD_cons_succ] using ih xs v k

lemma getD_set_self : ∀ (l : List (List CellVal)) (r : Nat) (x : List CellVal),
    r < l.length → (l.set r x).getD r [] = x := by
  intro l
  induction l with
  | nil => intro r x h; simp at h
  | cons a t ih =>
    intro r x h
    cases r with
    | zero => simp [List.set]
    | succ r =>
      simpa [List.set, List.getD_cons_succ] using ih r x (by simpa using h)

lemma getD_set_ne : ∀ (l : List (List CellVal)) (r : Nat) (x : List CellVal) (r2 : Nat),
    r ≠ r2 → (l.set r x).getD r2 [] = l.getD r2 [] := by
  intro l
  induction l with
  | nil => intro r x r2 h; simp [List.set]
  | cons a t ih =>
    intro r x r2 h
    cases r with
    | zero =>
      cases r2 with
      | zero => exact absurd rfl h
      | succ r2 => simp [List.set, List.getD_cons_succ]
    | succ r =>
      cases r2 with
      | zero => simp [List.set, List.getD_cons_zero]
      | succ r2 =>
        simpa [List.set, List.getD_cons_succ] using ih r x r2 (by omega)

lemma gridSetCell_length (grid : List (List CellVal)) (r c : Nat) (v : CellVal) :
    (gridSetCell grid r c v).length = grid.length := by
  simp [gridSetCell]

lemma cellOf_gridSetCell (grid : List (List CellVal)) (r c : Nat) (v : CellVal)
    (r2 c2 : Nat) (hr : r < grid.length) :
    cellOf (gridSetCell grid r c v) r2 c2 =
      if r = r2 ∧ c = c2 then v else cellOf grid r2 c2 := by
  unfold cellOf gridSetCell
  by_cases hrr : r = r2
  · subst hrr
    rw [getD_set_self grid r _ hr, rowSet_getD]
    by_cases hcc : c = c2
    · subst hcc
      simp
    · rw [if_neg (fun h => hcc h.symm), if_neg (fun h => hcc h.2)]
  · rw [getD_set_ne grid r _ r2 hrr, if_neg (fun h => hrr h.1)]

lemma applyWrite_length (grid : List (List CellVal)) (w : Write) :
    (applyWrite grid w).length = grid.length := by
  simp [applyWrite, gridSetCell_length]

lemma applyWrites_length : ∀ (ws : List Write) (grid : List (List CellVal)),
    (applyWrites grid ws).length = grid.length := by
  intro ws
  induction ws with
  | nil => intro grid; rfl
  | cons w ws ih =>
    intro grid
    simp only [applyWrites, List.foldl_cons]
    rw [show List.foldl applyWrite (applyWrite grid w) ws = applyWrites (applyWrite grid w) ws
      from rfl, ih, applyWrite_length]

lemma cellOf_applyWrites : ∀ (ws : List Write) (grid : List (List CellVal)) (r c : Nat),
    (∀ w ∈ ws, w.row1 - 1 < grid.length) →
    cellOf (applyWrites grid ws) r c = overlay (lastWriteTo ws r c) (cellOf grid r c) := by
  intro ws
  induction ws with
  | nil => intro grid r c _; rfl
  | cons w ws ih =>
    intro grid r c hb
    have hw : w.row1 - 1 < grid.length := hb w (List.mem_cons_self w ws)
    have hb2 : ∀ w2 ∈ ws, w2.row1 - 1 < (applyWrite grid w).length := by
      intro w2 hw2
      rw [applyWrite_length]
      exact hb w2 (List.mem_cons_of_mem w hw2)
    have hstep : applyWrites grid (w :: ws) = applyWrites (applyWrite grid w) ws := rfl
    rw [hstep, ih (applyWrite grid w) r c hb2]
    simp only [lastWriteTo]
    cases lastWriteTo ws r c with
    | some v => rfl
    | none =>
      simp only [overlay]
      rw [show applyWrite grid w = gridSetCell grid (w.row1 - 1) (colIndex w.col)
        (CellVal.str w.value) from rfl, cellOf_gridSetCell _ _ _ _ _ _ hw]
      by_cases h : w.row1 - 1 = r ∧ colIndex w.col = c
      · simp [h]
      · simp [h]

lemma lastWriteTo_append_some {l2 : List Write} {r c : Nat} {v : String} (l1 : List Write)
    (h : lastWriteTo l2 r c = some v) : lastWriteTo (l1 ++ l2) r c = some v := by
  induction l1 with
  | nil => simpa using h
  | cons w l1 ih => simp only [List.cons_append, lastWriteTo, List.append_eq, ih]

lemma lastWriteTo_append_none {l2 : List Write} {r c : Nat} (l1 : List Write)
    (h : lastWriteTo l2 r c = none) : lastWriteTo (l1 ++ l2) r c = lastWriteTo l1 r c := by
  induction l1 with
  | nil => simpa using h
  | cons w l1 ih => simp only [List.cons_append, lastWriteTo, List.append_eq, ih]

lemma lastWriteTo_eq_none {ws : List Write} {r c : Nat}
    (h : ∀ w ∈ ws, ¬(w.row1 - 1 = r ∧ colIndex w.col = c)) :
    lastWriteTo ws r c = none := by
  induction ws with
  | nil => rfl
  | cons w ws ih =>
    simp only [lastWriteTo, ih (fun w2 hw2 => h w2 (List.mem_cons_of_mem w hw2))]
    simp [h w (List.mem_cons_self w ws)]

lemma lastWriteTo_flatMap {cands : List Candidate} {f : Candidate → List Write}
    (hf : ∀ c2 w, w ∈ f c2 → w.row1 = c2.rowIndex1Based)
    {c : Candidate} (col : Nat)
    (hp : cands.Pairwise (fun a b => a.rowIndex1Based < b.rowIndex1Based))
    (h1 : ∀ c2 ∈ cands, 1 ≤ c2.rowIndex1Based)
    (hc : c ∈ cands) :
    lastWriteTo (cands.flatMap f) (c.rowIndex1Based - 1) col =
      lastWriteTo (f c) (c.rowIndex1Based - 1) col := by
  induction cands with
  | nil => cases hc
  | cons a rest ih =>
    rw [List.flatMap_cons]
    rcases List.mem_cons.mp hc with rfl | hcr
    · have hnone : lastWriteTo (rest.flatMap f) (c.rowIndex1Based - 1) col = none := by
        apply lastWriteTo_eq_none
        intro w hw
        obtain ⟨c2, hc2, hwc2⟩ := List.mem_flatMap.mp hw
        have hlt : c.rowIndex1Based < c2.rowIndex1Based := (List.pairwise_cons.mp hp).1 c2 hc2
        have hr1 : 1 ≤ c.rowIndex1Based := h1 c (List.mem_cons_self c rest)
        have hrow := hf c2 w hwc2
        rintro ⟨he, _⟩
        omega
      exact lastWriteTo_append_none _ hnone
    · have hp2 := (List.pairwise_cons.mp hp).2
      have h12 : ∀ c2 ∈ rest, 1 ≤ c2.rowIndex1Based :=
        fun c2 h2 => h1 c2 (List.mem_cons_of_mem a h2)
      have ihh := ih hp2 h12 hcr
      cases hlw : lastWriteTo (rest.flatMap f) (c.rowIndex1Based - 1) col with
      | some v =>
        rw [lastWriteTo_append_some _ hlw]
        rw [hlw] at ihh
        exact ihh
      | none =>
        rw [lastWriteTo_append_none _ hlw]
        rw [hlw] at ihh
        rw [← ihh]
        apply lastWriteTo_eq_none
        intro w hw
        have hlt : a.rowIndex1Based < c.rowIndex1Based :=
          (List.pairwise_cons.mp hp).1 c hcr
        have hr1 : 1 ≤ a.rowIndex1Based := h1 a (List.mem_cons_self a rest)
        have hrow := hf a w hw
        rintro ⟨he, _⟩
        omega

lemma filter_flatMap_row {cands : List Candidate} {f : Candidate → List Write}
    (hf : ∀ c2 w, w ∈ f c2 → w.row1 = c2.rowIndex1Based)
    {c : Candidate}
    (hp : cands.Pairwise (fun a b => a.rowIndex1Based < b.rowIndex1Based))
    (hc : c ∈ cands) :
    (cands.flatMap f).filter (fun w => w.row1 == c.rowIndex1Based) = f c := by
  induction cands with
  | nil => cases hc
  | cons a rest ih =>
    rw [List.flatMap_cons, List.filter_append]
    rcases List.mem_cons.mp hc with rfl | hcr
    · have h2 : (rest.flatMap f).filter (fun w => w.row1 == c.rowIndex1Based) = [] := by
        rw [List.filter_eq_nil_iff]
        intro w hw
        obtain ⟨c2, hc2, hwc2⟩ := List.mem_flatMap.mp hw
        have hlt : c.rowIndex1Based < c2.rowIndex1Based := (List.pairwise_cons.mp hp).1 c2 hc2
        have hrow := hf c2 w hwc2
        simp [hrow]
        omega
      have h3 : (f c).filter (fun w => w.row1 == c.rowIndex1Based) = f c := by
        rw [List.filter_eq_self]
        intro w hw
        simp [hf c w hw]
      rw [h2, h3, List.append_nil]
    · have h2 : (f a).filter (fun w => w.row1 == c.rowIndex1Based) = [] := by
        rw [List.filter_eq_nil_iff]
        intro w hw
        have hlt : a.rowIndex1Based < c.rowIndex1Based := (List.pairwise_cons.mp hp).1 c hcr
        have hrow := hf a w hw
        simp [hrow]
        omega
      rw [h2, List.nil_append, ih (List.pairwise_cons.mp hp).2 hcr]

lemma outcomeFor_rows (cfg : Config) (p : String → ItemPlatform) (now : String)
    (c2 : Candidate) : ∀ w ∈ outcomeFor cfg p now c2, w.row1 = c2.rowIndex1Based := by
  intro w hw
  unfold outcomeFor at hw
  split at hw <;> simp [successWrites, errorWrites] at hw <;>
    rcases hw with rfl | rfl | rfl | rfl <;> rfl

lemma pendingOf_rows (cands : List Candidate) :
    ∀ w ∈ pendingOf cands, ∃ c ∈ cands, w.row1 = c.rowIndex1Based := by
  intro w hw
  obtain ⟨c, hc, rfl⟩ := List.mem_map.mp hw
  exact ⟨c, hc, rfl⟩

lemma outcomesOf_rows (cfg : Config) (p : String → ItemPlatform) (now : String)
    (cands : List Candidate) :
    ∀ w ∈ outcomesOf cfg p now cands, ∃ c ∈ cands, w.row1 = c.rowIndex1Based := by
  intro w hw
  obtain ⟨c, hc, hwc⟩ := List.mem_flatMap.mp hw
  exact ⟨c, hc, outcomeFor_rows cfg p now c w hwc⟩

lemma runMain_candidates (cfg : Config) (p : String → ItemPlatform) (now : String)
    (grid : List (List CellVal)) :
    (runMain cfg p now grid).candidates =
      if grid.length < 2 then [] else scanCandidates cfg.maxRowsPerRun grid := by
  rw [runMain]
  by_cases h2 : grid.length < 2
  · simp [h2]
  · by_cases hne : scanCandidates cfg.maxRowsPerRun grid = [] <;> simp [h2, hne]

lemma runMain_of_ne {cfg : Config} {p : String → ItemPlatform} {now : String}
    {grid : List (List CellVal)} (hne : (runMain cfg p now grid).candidates ≠ []) :
    ¬grid.length < 2 ∧ scanCandidates cfg.maxRowsPerRun grid ≠ [] ∧
    runMain cfg p now grid =
      ⟨scanCandidates cfg.maxRowsPerRun grid,
       pendingOf (scanCandidates cfg.maxRowsPerRun grid),
       outcomesOf cfg p now (scanCandidates cfg.maxRowsPerRun grid),
       Event.batchWrite (pendingOf (scanCandidates cfg.maxRowsPerRun grid)) ::
         (eventsOf cfg p (scanCandidates cfg.maxRowsPerRun grid) ++
          [Event.batchWrite (outcomesOf cfg p now (scanCandidates cfg.maxRowsPerRun grid))])⟩ := by
  by_cases h2 : grid.length < 2
  · rw [runMain_candidates, if_pos h2] at hne
    exact absurd rfl hne
  · rw [runMain_candidates, if_neg h2] at hne
    refine ⟨h2, hne, ?_⟩
    rw [runMain]
    simp [h2, hne]

lemma runMain_of_mem {cfg : Config} {p : String → ItemPlatform} {now : String}
    {grid : List (List CellVal)} {c : Candidate}
    (hc : c ∈ (runMain cfg p now grid).candidates) :
    c ∈ scanCandidates cfg.maxRowsPerRun grid ∧
    runMain cfg p now grid =
      ⟨scanCandidates cfg.maxRowsPerRun grid,
       pendingOf (scanCandidates cfg.maxRowsPerRun grid),
       outcomesOf cfg p now (scanCandidates cfg.maxRowsPerRun grid),
       Event.batchWrite (pendingOf (scanCandidates cfg.maxRowsPerRun grid)) ::
         (eventsOf cfg p (scanCandidates cfg.maxRowsPerRun grid) ++
          [Event.batchWrite (outcomesOf cfg p now (scanCandidates cfg.maxRowsPerRun grid))])⟩ := by
  have hne : (runMain cfg p now grid).candidates ≠ [] := List.ne_nil_of_mem hc
  obtain ⟨h2, hsc, heq⟩ := runMain_of_ne hne
  refine ⟨?_, heq⟩
  rw [heq] at hc
  exact hc

lemma pairwise_row_inj {cands : List Candidate}
    (hp : cands.Pairwise (fun a b => a.rowIndex1Based < b.rowIndex1Based))
    {a b : Candidate} (ha : a ∈ cands) (hb : b ∈ cands)
    (hr : a.rowIndex1Based = b.rowIndex1Based) : a = b := by
  induction cands with
  | nil => cases ha
  | cons x rest ih =>
    rcases List.mem_cons.mp ha with rfl | ha2
    · rcases List.mem_cons.mp hb with rfl | hb2
      · rfl
      · have := (List.pairwise_cons.mp hp).1 b hb2
        omega
    · rcases List.mem_cons.mp hb with rfl | hb2
      · have := (List.pairwise_cons.mp hp).1 a ha2
        omega
      · exact ih (List.pairwise_cons.mp hp).2 ha2 hb2

lemma scanAll_eq_nil {rows : List (List CellVal)} {i : Nat}
    (h : ∀ k, k < rows.length → candidateOfRow (i + k) (rows.getD k []) = none) :
    scanAll rows i = [] := by
  rw [List.eq_nil_iff_forall_not_mem]
  intro c hc
  obtain ⟨k, hk, hck⟩ := (scanAll_mem_iff rows i).mp hc
  rw [h k hk] at hck
  exact Option.noConfusion hck

lemma scanLoop_eq_nil {max : Option JsNum} {len : Nat} {rows : List (List CellVal)} {i : Nat}
    (h : scanAll rows i = []) : scanLoop max len rows i = [] :=
  List.sublist_nil.mp (h ▸ scanLoop_sublist max rows len i)

lemma outcomeFor_cols (cfg : Config) (p : String → ItemPlatform) (now : String)
    (c2 : Candidate) : ∀ w ∈ outcomeFor cfg p now c2,
      w.col = Col.status ∨ w.col = Col.lastPushedAt ∨ w.col = Col.lastError ∨
        w.col = Col.desired := by
  intro w hw
  unfold outcomeFor at hw
  split at hw <;> simp [successWrites, errorWrites] at hw <;>
    rcases hw with rfl | rfl | rfl | rfl <;> simp

lemma outcomeFor_status (cfg : Config) (p : String → ItemPlatform) (now : String)
    (c2 : Candidate) : ∃ v, (⟨Col.status, c2.rowIndex1Based, v⟩ : Write) ∈
      outcomeFor cfg p now c2 := by
  unfold outcomeFor
  split
  · exact ⟨"", by simp [successWrites]⟩
  · exact ⟨"ERROR", by simp [errorWrites]⟩

lemma pushEvents_shape (p : ItemPlatform) (item loc : String) (q cmp : Int) :
    (shopifyInventorySetAvailable p item loc q cmp).2 = [Event.attempt item q cmp] ∨
    (shopifyInventorySetAvailable p item loc q cmp).2 =
      [Event.attempt item q cmp, Event.readCurrent item] ∨
    ∃ cur, (shopifyInventorySetAvailable p item loc q cmp).2 =
      [Event.attempt item q cmp, Event.readCurrent item, Event.attempt item q cur] := by
  unfold shopifyInventorySetAvailable
  split
  · left; rfl
  · split
    · split
      · right; left; rfl
      · split
        · right; right; exact ⟨_, rfl⟩
        · split
          · right; right; exact ⟨_, rfl⟩
          · right; right; exact ⟨_, rfl⟩
    · split
      · left; rfl
      · left; rfl

lemma pushEvents_not_batch (p : ItemPlatform) (item loc : String) (q cmp : Int) :
    ∀ e ∈ (shopifyInventorySetAvailable p item loc q cmp).2, ∀ ws, e ≠ Event.batchWrite ws := by
  intro e he ws
  rcases pushEvents_shape p item loc q cmp with h | h | ⟨cur, h⟩ <;> rw [h] at he <;>
    simp at he
  · subst he; simp
  · rcases he with rfl | rfl <;> simp
  · rcases he with rfl | rfl | rfl <;> simp

/-- Whether an environment variable is falsy for requireEnv: absent or the
empty string. -/
def envMissing (env : String → Option String) (name : String) : Bool :=
  match env name with
  | none => true
  | some v => v == ""

/-- The first of the four required variables that is missing, in the order
main checks them. -/
def firstMissingEnv (env : String → Option String) : String :=
  if envMissing env "SPREADSHEET_ID" then "SPREADSHEET_ID"
  else if envMissing env "SHOPIFY_STORE_DOMAIN" then "SHOPIFY_STORE_DOMAIN"
  else if envMissing env "SHOPIFY_LOCATION_ID" then "SHOPIFY_LOCATION_ID"
  else "SHOPIFY_ADMIN_TOKEN"

lemma requireEnv_of_missing {env : String → Option String} {name : String}
    (h : envMissing env name = true) :
    requireEnv env name = Except.error ("Missing env var: " ++ name) := by
  unfold envMissing at h
  unfold requireEnv
  cases he : env name with
  | none => rfl
  | some v =>
    rw [he] at h
    simp only [beq_iff_eq] at h
    simp [h]

lemma requireEnv_of_present {env : String → Option String} {name : String}
    (h : envMissing env name = false) :
    ∃ v, requireEnv env name = Except.ok v := by
  unfold envMissing at h
  cases he : env name with
  | none => rw [he] at h; exact Bool.noConfusion h
  | some v =>
    rw [he] at h
    simp only [beq_eq_false_iff_ne, ne_eq] at h
    exact ⟨v, by simp [requireEnv, he, h]⟩

/-- Whether the push of one candidate succeeded, for stating run-level
success concretely. -/
def pushOk (cfg : Config) (p : String → ItemPlatform) (c : Candidate) : Bool :=
  match (shopifyInventorySetAvailable (p c.inventoryItemId) c.inventoryItemId cfg.locationId
      c.desired c.available).1 with
  | Except.ok _ => true
  | Except.error _ => false

/-- A data row with the given desired, available, and id cells in columns
E, F, and J. -/
def demoRow (d a id : String) : List CellVal :=
  [CellVal.empty, CellVal.empty, CellVal.empty, CellVal.empty,
   CellVal.str d, CellVal.str a, CellVal.empty, CellVal.empty, CellVal.empty, CellVal.str id]

/-- A snapshot with a header row and one eligible data row. -/
def demoGrid1 : List (List CellVal) :=
  [[], demoRow "7" "10" "gid1"]

/-- A snapshot with a header row and two eligible data rows. -/
def demoGrid2 : List (List CellVal) :=
  [[], demoRow "7" "10" "gid1", demoRow "3" "9" "gid2"]

/-- A run configuration with the given per-run maximum. -/
def demoConfig (m : Nat) : Config :=
  ⟨"sid", "Truth_Table", some (JsNum.ofNat m), "dom", "locid", "tok"⟩

/-- A platform on which every conditional set succeeds. -/
def pAllOk : String → ItemPlatform :=
  fun _ => ⟨fun _ _ => Except.ok [], Except.ok 10⟩

/-- A platform that rejects every conditional set for a non-staleness
reason. -/
def pAllFail : String → ItemPlatform :=
  fun _ => ⟨fun _ _ => Except.ok [⟨"INVALID", "", "bad id"⟩], Except.ok 10⟩

/-- The stale-precondition userError. -/
def staleUE : UserError :=
  ⟨"COMPARE_QUANTITY_STALE", "", "stale"⟩

/-- A platform whose live quantity is 8: the first attempt with
precondition 10 is rejected as stale, an attempt with precondition 8
succeeds. -/
def pStaleDemo : ItemPlatform :=
  ⟨fun _ cmp => if cmp = 10 then Except.ok [staleUE] else Except.ok [], Except.ok 8⟩

/-- The selection conditions of claim C2, stated on the three cells the
scanner reads: the id cell is present (truthy and not blank after
trimming), both quantity cells parse under the scanner parsing function
normalizeInt (claim C10 characterizes it), and the parsed values are
unequal. -/
def specSyncCandidate (row : List CellVal) : Prop :=
  itemIdOfCell (row.getD 9 CellVal.empty) ≠ none ∧
  normalizeInt (row.getD 4 CellVal.empty) ≠ none ∧
  normalizeInt (row.getD 5 CellVal.empty) ≠ none ∧
  normalizeInt (row.getD 4 CellVal.empty) ≠ normalizeInt (row.getD 5 CellVal.empty)

lemma candidateOfRow_isSome_iff (i : Nat) (row : List CellVal) :
    (candidateOfRow i row).isSome = true ↔ specSyncCandidate row := by
  unfold candidateOfRow specSyncCandidate
  cases hid : itemIdOfCell (row.getD 9 CellVal.empty) with
  | none => simp
  | some gid =>
    cases hd : normalizeInt (row.getD 4 CellVal.empty) with
    | none => simp
    | some d =>
      cases ha : normalizeInt (row.getD 5 CellVal.empty) with
      | none => simp
      | some a =>
        by_cases hne : d = a
        · subst hne
          simp
        · simp [hne]

/-- C2: a row is selected as a sync candidate exactly when its id cell is
present, both quantity cells normalize to integers, and the two integers
differ; part two states it for the scan of a whole snapshot when the
per-run maximum does not truncate: the row at sheet-array index k + 1
(1-based sheet row k + 2) yields a candidate iff it satisfies the
conditions. -/
theorem c2_candidate_selection :
    (∀ (i : Nat) (row : List CellVal),
      (candidateOfRow i row).isSome = true ↔ specSyncCandidate row) ∧
    (∀ (grid : List (List CellVal)) (m k : Nat),
      countEligible grid ≤ m → k + 1 < grid.length →
      ((∃ c ∈ scanCandidates (some (JsNum.ofNat m)) grid, c.rowIndex1Based = k + 2) ↔
        specSyncCandidate (grid.getD (k + 1) []))) := by
  refine ⟨candidateOfRow_isSome_iff, ?_⟩
  intro grid m k hno hk
  have hscan : scanCandidates (some (JsNum.ofNat m)) grid = scanAll (grid.drop 1) 1 :=
    scanLoop_eq_scanAll (grid.drop 1) 0 1 (by simpa [countEligible] using hno)
  have hbody : (grid.drop 1).length = grid.length - 1 := by simp
  constructor
  · rintro ⟨c, hc, hrow⟩
    rw [hscan] at hc
    obtain ⟨k2, hk2, hck2⟩ := (scanAll_mem_iff (grid.drop 1) 1).mp hc
    have hr := candidateOfRow_rowIndex hck2
    have hkk : k2 = k := by omega
    subst hkk
    rw [getD_drop_one] at hck2
    have h1k : 1 + k2 = k2 + 1 := by omega
    rw [h1k] at hck2
    exact (candidateOfRow_isSome_iff (k2 + 1) (grid.getD (k2 + 1) [])).mp
      (by rw [hck2]; rfl)
  · intro hspec
    have hsome := (candidateOfRow_isSome_iff (1 + k) (grid.getD (k + 1) [])).mpr hspec
    obtain ⟨c, hc⟩ := Option.isSome_iff_exists.mp hsome
    refine ⟨c, ?_, ?_⟩
    · rw [hscan]
      refine (scanAll_mem_iff (grid.drop 1) 1).mpr ⟨k, by omega, ?_⟩
      rw [getD_drop_one]
      exact hc
    · have := candidateOfRow_rowIndex hc
      omega

/-- C2 witness: the conditions evaluated on a concrete eligible row. -/
theorem c2_witness :
    (candidateOfRow 1 (demoRow "7" "10" "gid1")).isSome = true ↔
      specSyncCandidate (demoRow "7" "10" "gid1") :=
  c2_candidate_selection.1 1 (demoRow "7" "10" "gid1")

/-- C10: normalizeInt returns null exactly for null and undefined, strings
blank after trimming, and strings whose Number() conversion is not finite;
a string whose conversion is a finite number q yields the truncation of q
toward zero, so the fractional cell 7.9 is not excluded but becomes 7,
which the scan then uses as the desired quantity. -/
theorem c10_normalizeInt_truncation :
    (∀ v, normalizeInt v = none ↔
      (v = CellVal.empty ∨
        ∃ s, v = CellVal.str s ∧ (jsTrim s = "" ∨ jsNumberOfString (jsTrim s) = none))) ∧
    (∀ (s : String) (q : JsNum), jsTrim s ≠ "" → jsNumberOfString (jsTrim s) = some q →
      normalizeInt (CellVal.str s) = some (jsTrunc q)) ∧
    normalizeInt (CellVal.str "7.9") = some 7 ∧
    (∀ (i : Nat) (row : List CellVal) (c : Candidate),
      row.getD 4 CellVal.empty = CellVal.str "7.9" →
      candidateOfRow i row = some c → c.desired = 7) := by
  refine ⟨?_, ?_, by decide, ?_⟩
  · intro v
    cases v with
    | empty => simp [normalizeInt]
    | num q => simp [normalizeInt]
    | str s =>
      simp only [normalizeInt, CellVal.str.injEq]
      by_cases ht : jsTrim s = ""
      · simp [ht]
      · cases hp : jsNumberOfString (jsTrim s) with
        | none => simp [ht, hp]
        | some q => simp [ht, hp]
  · intro s q ht hq
    simp [normalizeInt, ht, hq]
  · intro i row c h4 hc
    have h7 : normalizeInt (row.getD 4 CellVal.empty) = some 7 := by
      rw [h4]
      decide
    cases hid : itemIdOfCell (row.getD 9 CellVal.empty) with
    | none =>
      simp only [candidateOfRow, h7, hid] at hc
      exact Option.noConfusion hc
    | some gid =>
      cases ha : normalizeInt (row.getD 5 CellVal.empty) with
      | none =>
        simp only [candidateOfRow, h7, hid, ha] at hc
        exact Option.noConfusion hc
      | some a =>
        simp only [candidateOfRow, h7, hid, ha] at hc
        by_cases hne : (7 : Int) = a
        · rw [if_neg (fun hP => hP hne)] at hc
          exact Option.noConfusion hc
        · rw [if_pos hne] at hc
          injection hc with h
          rw [← h]

/-- C10 witness: a padded fractional string parsed and truncated through
the theorem. -/
theorem c10_witness :
    normalizeInt (CellVal.str " 7.9 ") = some (jsTrunc ⟨79, 1⟩) :=
  c10_normalizeInt_truncation.2.1 " 7.9 " ⟨79, 1⟩ (by decide) (by decide)

/-- C1: when the first conditional set is rejected with a
COMPARE_QUANTITY_STALE userError and the current quantity reads back as
cur, the engine makes exactly one retry, with cur as the new precondition
(the call trace is attempt, readCurrent, attempt with cur), and a nonempty
userErrors array on the retry is terminal; when the first attempt is
rejected without the stale code the engine stops after the single attempt
with the rejection as its error. -/
lemma pushAfterStale {p : ItemPlatform} {qty cmp : Int} {ue1 : List UserError} {cur : Int}
    (h1 : p.attempt qty cmp = Except.ok ue1)
    (hst : (ue1.find? (fun e => e.code == "COMPARE_QUANTITY_STALE")).isSome = true)
    (hcur : p.current = Except.ok cur) (item loc : String) :
    shopifyInventorySetAvailable p item loc qty cmp =
      ((match p.attempt qty cur with
        | Except.error e => Except.error e
        | Except.ok ue2 =>
          if ue2.isEmpty then Except.ok () else Except.error (userErrorsMessage ue2)),
       [Event.attempt item qty cmp, Event.readCurrent item, Event.attempt item qty cur]) := by
  obtain ⟨e0, he0⟩ := Option.isSome_iff_exists.mp hst
  simp only [shopifyInventorySetAvailable, h1, he0, hcur]
  cases hatt : p.attempt qty cur with
  | error e => rfl
  | ok ue2 => by_cases he : ue2.isEmpty <;> simp [he]

theorem c1_stale_retry (p : ItemPlatform) (item loc : String) (qty cmp : Int) :
    (∀ (ue1 : List UserError) (cur : Int),
      p.attempt qty cmp = Except.ok ue1 →
      (ue1.find? (fun e => e.code == "COMPARE_QUANTITY_STALE")).isSome = true →
      p.current = Except.ok cur →
      (shopifyInventorySetAvailable p item loc qty cmp).2 =
        [Event.attempt item qty cmp, Event.readCurrent item, Event.attempt item qty cur] ∧
      (∀ ue2, p.attempt qty cur = Except.ok ue2 → ue2 ≠ [] →
        (shopifyInventorySetAvailable p item loc qty cmp).1 =
          Except.error (userErrorsMessage ue2))) ∧
    (∀ (ue1 : List UserError),
      p.attempt qty cmp = Except.ok ue1 → ue1 ≠ [] →
      (ue1.find? (fun e => e.code == "COMPARE_QUANTITY_STALE")).isSome = false →
      (shopifyInventorySetAvailable p item loc qty cmp).2 = [Event.attempt item qty cmp] ∧
      (shopifyInventorySetAvailable p item loc qty cmp).1 =
        Except.error (userErrorsMessage ue1)) := by
  constructor
  · intro ue1 cur h1 hst hcur
    have heq := pushAfterStale h1 hst hcur item loc
    rw [heq]
    refine ⟨rfl, ?_⟩
    intro ue2 h2 hnex
    have hie : ue2.isEmpty = false := by
      cases ue2 with
      | nil => exact absurd rfl hnex
      | cons a l => rfl
    simp only [h2, hie]
    rfl
  · intro ue1 h1 hne hst
    have hfind : ue1.find? (fun e => e.code == "COMPARE_QUANTITY_STALE") = none := by
      cases hf : ue1.find? (fun e => e.code == "COMPARE_QUANTITY_STALE") with
      | none => rfl
      | some e => rw [hf] at hst; exact Bool.noConfusion hst
    have hie : ue1.isEmpty = false := by
      cases ue1 with
      | nil => exact absurd rfl hne
      | cons a l => rfl
    simp only [shopifyInventorySetAvailable, h1, hfind]
    simp [hie]

/-- C1 witness: on a platform with live quantity 8, pushing 7 with stale
precondition 10 produces exactly the trace attempt, readCurrent, retry
with 8. -/
theorem c1_witness :
    (shopifyInventorySetAvailable pStaleDemo "item" "loc" 7 10).2 =
      [Event.attempt "item" 7 10, Event.readCurrent "item", Event.attempt "item" 7 8] :=
  ((c1_stale_retry pStaleDemo "item" "loc" 7 10).1 [staleUE] 8 rfl (by decide) rfl).1

/-- C3: for a candidate whose conditional set succeeds, the outcome batch
writes for its row are exactly clear status, set lastPushedAt to the run
timestamp, clear lastError, and clear desiredAvailable; no outcome write of
the run touches the available column. -/
theorem c3_success_records (cfg : Config) (p : String → ItemPlatform) (now : String)
    (grid : List (List CellVal)) (c : Candidate)
    (hc : c ∈ (runMain cfg p now grid).candidates)
    (hok : (shopifyInventorySetAvailable (p c.inventoryItemId) c.inventoryItemId
        cfg.locationId c.desired c.available).1 = Except.ok ()) :
    ((runMain cfg p now grid).outcomeWrites.filter
        (fun w => w.row1 == c.rowIndex1Based)) =
      [⟨Col.status, c.rowIndex1Based, ""⟩,
       ⟨Col.lastPushedAt, c.rowIndex1Based, now⟩,
       ⟨Col.lastError, c.rowIndex1Based, ""⟩,
       ⟨Col.desired, c.rowIndex1Based, ""⟩] ∧
    (∀ w ∈ (runMain cfg p now grid).outcomeWrites, w.col ≠ Col.available) := by
  obtain ⟨hcs, heq⟩ := runMain_of_mem hc
  rw [heq]
  constructor
  · rw [show (⟨scanCandidates cfg.maxRowsPerRun grid,
        pendingOf (scanCandidates cfg.maxRowsPerRun grid),
        outcomesOf cfg p now (scanCandidates cfg.maxRowsPerRun grid),
        Event.batchWrite (pendingOf (scanCandidates cfg.maxRowsPerRun grid)) ::
          (eventsOf cfg p (scanCandidates cfg.maxRowsPerRun grid) ++
           [Event.batchWrite (outcomesOf cfg p now
             (scanCandidates cfg.maxRowsPerRun grid))])⟩ : RunResult).outcomeWrites =
      outcomesOf cfg p now (scanCandidates cfg.maxRowsPerRun grid) from rfl]
    rw [outcomesOf, filter_flatMap_row (outcomeFor_rows cfg p now)
      (scanCandidates_pairwise cfg.maxRowsPerRun grid) hcs]
    simp only [outcomeFor, hok]
    rfl
  · intro w hw
    rw [show (⟨scanCandidates cfg.maxRowsPerRun grid,
        pendingOf (scanCandidates cfg.maxRowsPerRun grid),
        outcomesOf cfg p now (scanCandidates cfg.maxRowsPerRun grid),
        Event.batchWrite (pendingOf (scanCandidates cfg.maxRowsPerRun grid)) ::
          (eventsOf cfg p (scanCandidates cfg.maxRowsPerRun grid) ++
           [Event.batchWrite (outcomesOf cfg p now
             (scanCandidates cfg.maxRowsPerRun grid))])⟩ : RunResult).outcomeWrites =
      outcomesOf cfg p now (scanCandidates cfg.maxRowsPerRun grid) from rfl,
      outcomesOf] at hw
    obtain ⟨c2, hc2, hw2⟩ := List.mem_flatMap.mp hw
    rcases outcomeFor_cols cfg p now c2 w hw2 with h | h | h | h <;> simp [h]

/-- C3 witness: the filtered outcome writes of the concrete successful
run. -/
theorem c3_witness :
    ((runMain (demoConfig 50) pAllOk "T" demoGrid1).outcomeWrites.filter
        (fun w => w.row1 == (2 : Nat))) =
      [⟨Col.status, 2, ""⟩, ⟨Col.lastPushedAt, 2, "T"⟩,
       ⟨Col.lastError, 2, ""⟩, ⟨Col.desired, 2, ""⟩] :=
  (c3_success_records (demoConfig 50) pAllOk "T" demoGrid1 ⟨2, "gid1", 7, 10⟩
    (by decide) rfl).1

/-- C9: every candidate receives a PENDING status write in the PENDING
batch, and the last status write of the run for its row (across both
batches) is the empty string or ERROR, so PENDING never survives a
normally completed run. -/
theorem c9_pending_resolved (cfg : Config) (p : String → ItemPlatform) (now : String)
    (grid : List (List CellVal)) (c : Candidate)
    (hc : c ∈ (runMain cfg p now grid).candidates) :
    (⟨Col.status, c.rowIndex1Based, "PENDING"⟩ : Write) ∈
      (runMain cfg p now grid).pendingWrites ∧
    ∃ v, lastWriteTo ((runMain cfg p now grid).pendingWrites ++
        (runMain cfg p now grid).outcomeWrites)
        (c.rowIndex1Based - 1) (colIndex Col.status) = some v ∧
      (v = "" ∨ v = "ERROR") := by
  obtain ⟨hcs, heq⟩ := runMain_of_mem hc
  rw [heq]
  refine ⟨List.mem_map.mpr ⟨c, hcs, rfl⟩, ?_⟩
  have hpair := scanCandidates_pairwise cfg.maxRowsPerRun grid
  have h1 : ∀ c2 ∈ scanCandidates cfg.maxRowsPerRun grid, 1 ≤ c2.rowIndex1Based := by
    intro c2 h2
    have := (scanCandidates_row_facts h2).1
    omega
  have hflat := lastWriteTo_flatMap (outcomeFor_rows cfg p now) (colIndex Col.status)
    hpair h1 hcs
  cases hres : (shopifyInventorySetAvailable (p c.inventoryItemId) c.inventoryItemId
      cfg.locationId c.desired c.available).1 with
  | ok u =>
    refine ⟨"", ?_, Or.inl rfl⟩
    apply lastWriteTo_append_some
    rw [outcomesOf, hflat]
    simp only [outcomeFor, hres]
    simp [lastWriteTo, successWrites, colIndex]
  | error msg =>
    refine ⟨"ERROR", ?_, Or.inr rfl⟩
    apply lastWriteTo_append_some
    rw [outcomesOf, hflat]
    simp only [outcomeFor, hres]
    simp [lastWriteTo, errorWrites, colIndex]

/-- C9 witness: the PENDING write of the concrete candidate. -/
theorem c9_witness :
    (⟨Col.status, 2, "PENDING"⟩ : Write) ∈
      (runMain (demoConfig 50) pAllOk "T" demoGrid1).pendingWrites :=
  (c9_pending_resolved (demoConfig 50) pAllOk "T" demoGrid1 ⟨2, "gid1", 7, 10⟩
    (by decide)).1

/-- C8: in a run with candidates, the event trace is exactly one batch
write of the PENDING marks, then the per-candidate platform calls with no
sheet write among them, then one batch write of all outcomes; the PENDING
batch carries one status write per candidate. -/
theorem c8_two_batch_writes (cfg : Config) (p : String → ItemPlatform) (now : String)
    (grid : List (List CellVal))
    (hne : (runMain cfg p now grid).candidates ≠ []) :
    (runMain cfg p now grid).events =
      Event.batchWrite ((runMain cfg p now grid).pendingWrites) ::
        (eventsOf cfg p ((runMain cfg p now grid).candidates) ++
         [Event.batchWrite ((runMain cfg p now grid).outcomeWrites)]) ∧
    (∀ e ∈ eventsOf cfg p ((runMain cfg p now grid).candidates),
      ∀ ws, e ≠ Event.batchWrite ws) ∧
    (runMain cfg p now grid).pendingWrites =
      ((runMain cfg p now grid).candidates).map
        (fun c => ⟨Col.status, c.rowIndex1Based, "PENDING"⟩) := by
  obtain ⟨h2, hsc, heq⟩ := runMain_of_ne hne
  rw [heq]
  refine ⟨rfl, ?_, rfl⟩
  intro e he ws
  rw [show (⟨scanCandidates cfg.maxRowsPerRun grid,
      pendingOf (scanCandidates cfg.maxRowsPerRun grid),
      outcomesOf cfg p now (scanCandidates cfg.maxRowsPerRun grid),
      Event.batchWrite (pendingOf (scanCandidates cfg.maxRowsPerRun grid)) ::
        (eventsOf cfg p (scanCandidates cfg.maxRowsPerRun grid) ++
         [Event.batchWrite (outcomesOf cfg p now
           (scanCandidates cfg.maxRowsPerRun grid))])⟩ : RunResult).candidates =
    scanCandidates cfg.maxRowsPerRun grid from rfl, eventsOf] at he
  obtain ⟨c2, hc2, he2⟩ := List.mem_flatMap.mp he
  rw [eventsFor] at he2
  exact pushEvents_not_batch (p c2.inventoryItemId) c2.inventoryItemId cfg.locationId
    c2.desired c2.available e he2 ws

/-- C8 witness: the concrete event trace of a one-candidate run. -/
theorem c8_witness :
    (runMain (demoConfig 50) pAllOk "T" demoGrid1).events =
      Event.batchWrite ((runMain (demoConfig 50) pAllOk "T" demoGrid1).pendingWrites) ::
        (eventsOf (demoConfig 50) pAllOk
          ((runMain (demoConfig 50) pAllOk "T" demoGrid1).candidates) ++
         [Event.batchWrite ((runMain (demoConfig 50) pAllOk "T" demoGrid1).outcomeWrites)]) :=
  (c8_two_batch_writes (demoConfig 50) pAllOk "T" demoGrid1 (by decide)).1

/-- C6 counterexample: with a configured maximum of 0 and two eligible
rows, the scan selects one candidate, not the first zero rows that the
claim requires (the break fires only after a push, so a non-positive
maximum still selects one row). -/
theorem c6_counterexample :
    countEligible demoGrid2 = 2 ∧
    scanCandidates (some (JsNum.ofNat 0)) demoGrid2 = [⟨2, "gid1", 7, 10⟩] := by
  decide

/-- C6 amended: for a configured per-run maximum of at least 1 that the
eligible count exceeds, exactly the first m eligible rows in row order are
selected, and every sheet write of the run targets a selected row. -/
theorem c6_truncation (cfg : Config) (p : String → ItemPlatform) (now : String)
    (grid : List (List CellVal)) (m : Nat)
    (hmax : cfg.maxRowsPerRun = some (JsNum.ofNat m)) (hm : 1 ≤ m)
    (hexceed : m < countEligible grid) :
    (runMain cfg p now grid).candidates = (scanAll (grid.drop 1) 1).take m ∧
    (runMain cfg p now grid).candidates.length = m ∧
    (∀ w ∈ (runMain cfg p now grid).pendingWrites ++ (runMain cfg p now grid).outcomeWrites,
      ∃ c ∈ (runMain cfg p now grid).candidates, w.row1 = c.rowIndex1Based) := by
  have hscan : scanCandidates cfg.maxRowsPerRun grid = (scanAll (grid.drop 1) 1).take m := by
    rw [hmax]
    rw [show scanCandidates (some (JsNum.ofNat m)) grid =
      scanLoop (some (JsNum.ofNat m)) 0 (grid.drop 1) 1 from rfl]
    rw [scanLoop_take (grid.drop 1) 0 1 (by omega), Nat.sub_zero]
  have hlen : (scanCandidates cfg.maxRowsPerRun grid).length = m := by
    rw [hscan, List.length_take]
    unfold countEligible at hexceed
    omega
  have hne2 : scanCandidates cfg.maxRowsPerRun grid ≠ [] := by
    intro h0
    rw [h0] at hlen
    simp at hlen
    omega
  have h2 : ¬grid.length < 2 := by
    intro hlt
    have hb : (grid.drop 1).length = 0 := by
      simp only [List.length_drop]
      omega
    have h0 : countEligible grid = 0 := by
      unfold countEligible
      rw [List.length_eq_zero.mp hb]
      rfl
    omega
  have hcands : (runMain cfg p now grid).candidates = scanCandidates cfg.maxRowsPerRun grid := by
    rw [runMain_candidates, if_neg h2]
  have hne3 : (runMain cfg p now grid).candidates ≠ [] := by
    rw [hcands]
    exact hne2
  obtain ⟨_, _, heq⟩ := runMain_of_ne hne3
  rw [heq]
  refine ⟨hscan, hlen, ?_⟩
  intro w hw
  rcases List.mem_append.mp hw with hw2 | hw2
  · exact pendingOf_rows _ w hw2
  · exact outcomesOf_rows cfg p now _ w hw2

/-- C6 witness: the concrete truncated selection at maximum 1 over two
eligible rows. -/
theorem c6_witness :
    (runMain (demoConfig 1) pAllOk "T" demoGrid2).candidates =
      (scanAll (demoGrid2.drop 1) 1).take 1 :=
  (c6_truncation (demoConfig 1) pAllOk "T" demoGrid2 1 rfl (by decide) (by decide)).1

/-- C4: for a candidate whose push fails terminally with message msg, the
outcome batch writes for its row are exactly status ERROR and the message
sliced to 450 characters into lastError; no write of the run touches its
desiredAvailable or available cells, so after applying every write of the
run the row still satisfies the candidate predicate; and every candidate,
also after a failure, still receives its own outcome status write, so the
run continues past the failing candidate. -/
theorem c4_error_records (cfg : Config) (p : String → ItemPlatform) (now : String)
    (grid : List (List CellVal)) (c : Candidate) (msg : String)
    (hc : c ∈ (runMain cfg p now grid).candidates)
    (herr : (shopifyInventorySetAvailable (p c.inventoryItemId) c.inventoryItemId
        cfg.locationId c.desired c.available).1 = Except.error msg) :
    ((runMain cfg p now grid).outcomeWrites.filter
        (fun w => w.row1 == c.rowIndex1Based)) =
      [⟨Col.status, c.rowIndex1Based, "ERROR"⟩,
       ⟨Col.lastError, c.rowIndex1Based, msg.take 450⟩] ∧
    (∀ w ∈ (runMain cfg p now grid).pendingWrites ++ (runMain cfg p now grid).outcomeWrites,
      w.row1 = c.rowIndex1Based → w.col ≠ Col.desired ∧ w.col ≠ Col.available) ∧
    (candidateOfRow (c.rowIndex1Based - 1)
        ((applyWrites grid ((runMain cfg p now grid).pendingWrites ++
          (runMain cfg p now grid).outcomeWrites)).getD (c.rowIndex1Based - 1) [])).isSome
      = true ∧
    (∀ c2 ∈ (runMain cfg p now grid).candidates,
      ∃ v, (⟨Col.status, c2.rowIndex1Based, v⟩ : Write) ∈
        (runMain cfg p now grid).outcomeWrites) := by
  obtain ⟨hcs, heq⟩ := runMain_of_mem hc
  have hpend : (runMain cfg p now grid).pendingWrites =
      pendingOf (scanCandidates cfg.maxRowsPerRun grid) := by rw [heq]
  have hout : (runMain cfg p now grid).outcomeWrites =
      outcomesOf cfg p now (scanCandidates cfg.maxRowsPerRun grid) := by rw [heq]
  have hcands : (runMain cfg p now grid).candidates =
      scanCandidates cfg.maxRowsPerRun grid := by rw [heq]
  have hpair := scanCandidates_pairwise cfg.maxRowsPerRun grid
  obtain ⟨hge2, hlt, hcrow⟩ := scanCandidates_row_facts hcs
  have hrows : ∀ w ∈ pendingOf (scanCandidates cfg.maxRowsPerRun grid) ++
      outcomesOf cfg p now (scanCandidates cfg.maxRowsPerRun grid),
      ∃ c2 ∈ scanCandidates cfg.maxRowsPerRun grid, w.row1 = c2.rowIndex1Based := by
    intro w hw
    rcases List.mem_append.mp hw with hw2 | hw2
    · exact pendingOf_rows _ w hw2
    · exact outcomesOf_rows cfg p now _ w hw2
  refine ⟨?_, ?_, ?_, ?_⟩
  · rw [hout, outcomesOf, filter_flatMap_row (outcomeFor_rows cfg p now) hpair hcs]
    simp only [outcomeFor, herr]
    rfl
  · intro w hw hrow
    rw [hpend, hout] at hw
    rcases List.mem_append.mp hw with hw2 | hw2
    · obtain ⟨c2, _, rfl⟩ := List.mem_map.mp hw2
      exact ⟨by simp, by simp⟩
    · rw [outcomesOf] at hw2
      obtain ⟨c2, hc2, hwc2⟩ := List.mem_flatMap.mp hw2
      have hr2 := outcomeFor_rows cfg p now c2 w hwc2
      have hceq : c2 = c := pairwise_row_inj hpair hc2 hcs (by omega)
      subst hceq
      rw [outcomeFor, herr] at hwc2
      simp only [errorWrites, List.mem_cons, List.not_mem_nil, or_false] at hwc2
      rcases hwc2 with rfl | rfl
      · exact ⟨by simp, by simp⟩
      · exact ⟨by simp, by simp⟩
  · rw [hpend, hout]
    have hbound : ∀ w ∈ pendingOf (scanCandidates cfg.maxRowsPerRun grid) ++
        outcomesOf cfg p now (scanCandidates cfg.maxRowsPerRun grid),
        w.row1 - 1 < grid.length := by
      intro w hw
      obtain ⟨c2, hc2, hr2⟩ := hrows w hw
      have := (scanCandidates_row_facts hc2).2.1
      omega
    have hnone : ∀ col, col = 4 ∨ col = 5 ∨ col = 9 →
        lastWriteTo (pendingOf (scanCandidates cfg.maxRowsPerRun grid) ++
          outcomesOf cfg p now (scanCandidates cfg.maxRowsPerRun grid))
          (c.rowIndex1Based - 1) col = none := by
      intro col hcol
      apply lastWriteTo_eq_none
      intro w hw
      rintro ⟨hwr, hwc⟩
      rcases List.mem_append.mp hw with hw2 | hw2
      · obtain ⟨c2, hc2, rfl⟩ := List.mem_map.mp hw2
        simp [colIndex] at hwc
        omega
      · rw [outcomesOf] at hw2
        obtain ⟨c2, hc2, hwc2⟩ := List.mem_flatMap.mp hw2
        have hr2 := outcomeFor_rows cfg p now c2 w hwc2
        have hge22 := (scanCandidates_row_facts hc2).1
        have hre : c2.rowIndex1Based = c.rowIndex1Based := by omega
        have hceq : c2 = c := pairwise_row_inj hpair hc2 hcs hre
        subst hceq
        rw [outcomeFor, herr] at hwc2
        simp only [errorWrites, List.mem_cons, List.not_mem_nil, or_false] at hwc2
        rcases hwc2 with rfl | rfl <;> simp only [colIndex] at hwc <;> omega
    have hcell4 : cellOf (applyWrites grid (pendingOf (scanCandidates cfg.maxRowsPerRun grid) ++
        outcomesOf cfg p now (scanCandidates cfg.maxRowsPerRun grid)))
        (c.rowIndex1Based - 1) 4 = cellOf grid (c.rowIndex1Based - 1) 4 := by
      rw [cellOf_applyWrites _ grid _ _ hbound, hnone 4 (by omega)]
      rfl
    have hcell5 : cellOf (applyWrites grid (pendingOf (scanCandidates cfg.maxRowsPerRun grid) ++
        outcomesOf cfg p now (scanCandidates cfg.maxRowsPerRun grid)))
        (c.rowIndex1Based - 1) 5 = cellOf grid (c.rowIndex1Based - 1) 5 := by
      rw [cellOf_applyWrites _ grid _ _ hbound, hnone 5 (by omega)]
      rfl
    have hcell9 : cellOf (applyWrites grid (pendingOf (scanCandidates cfg.maxRowsPerRun grid) ++
        outcomesOf cfg p now (scanCandidates cfg.maxRowsPerRun grid)))
        (c.rowIndex1Based - 1) 9 = cellOf grid (c.rowIndex1Based - 1) 9 := by
      rw [cellOf_applyWrites _ grid _ _ hbound, hnone 9 (by omega)]
      rfl
    have hcand2 : candidateOfRow (c.rowIndex1Based - 1)
        ((applyWrites grid (pendingOf (scanCandidates cfg.maxRowsPerRun grid) ++
          outcomesOf cfg p now (scanCandidates cfg.maxRowsPerRun grid))).getD
          (c.rowIndex1Based - 1) []) =
        candidateOfRow (c.rowIndex1Based - 1) (grid.getD (c.rowIndex1Based - 1) []) :=
      candidateOfRow_congr (c.rowIndex1Based - 1) hcell4 hcell5 hcell9
    rw [hcand2, hcrow]
    rfl
  · intro c2 hc2
    rw [hcands] at hc2
    obtain ⟨v, hv⟩ := outcomeFor_status cfg p now c2
    refine ⟨v, ?_⟩
    rw [hout, outcomesOf]
    exact List.mem_flatMap.mpr ⟨c2, hc2, hv⟩

/-- C4 witness: the filtered outcome writes of a concrete failing run. -/
theorem c4_witness :
    ((runMain (demoConfig 50) pAllFail "T" demoGrid1).outcomeWrites.filter
        (fun w => w.row1 == (2 : Nat))) =
      [⟨Col.status, 2, "ERROR"⟩,
       ⟨Col.lastError, 2,
        (userErrorsMessage [⟨"INVALID", "", "bad id"⟩]).take 450⟩] :=
  (c4_error_records (demoConfig 50) pAllFail "T" demoGrid1 ⟨2, "gid1", 7, 10⟩
    (userErrorsMessage [⟨"INVALID", "", "bad id"⟩]) (by decide) rfl).1

/-- C5 counterexample: with per-run maximum 1 and two eligible rows, every
candidate of the first run succeeds, no sheet edit or platform change
happens between the runs, and the second run still has a candidate (the
row the first run truncated away). -/
theorem c5_counterexample :
    ((runMain (demoConfig 1) pAllOk "T" demoGrid2).candidates.all
        (pushOk (demoConfig 1) pAllOk)) = true ∧
    (runMain (demoConfig 1) pAllOk "T"
        (applyWrites demoGrid2
          ((runMain (demoConfig 1) pAllOk "T" demoGrid2).pendingWrites ++
           (runMain (demoConfig 1) pAllOk "T" demoGrid2).outcomeWrites))).candidates ≠ [] := by
  decide

/-- C5 amended: when every eligible row is selected (the eligible count
does not exceed the per-run maximum) and every candidate of the first run
succeeds, re-running on the written-back snapshot with the unchanged
platform yields zero candidates, because the first run cleared every
selected desiredAvailable cell and non-selected rows were not eligible. -/
theorem c5_idempotent (cfg : Config) (p : String → ItemPlatform) (now : String)
    (grid : List (List CellVal)) (m : Nat)
    (hmax : cfg.maxRowsPerRun = some (JsNum.ofNat m))
    (hno : countEligible grid ≤ m)
    (hsucc : ∀ c ∈ (runMain cfg p now grid).candidates,
      (shopifyInventorySetAvailable (p c.inventoryItemId) c.inventoryItemId cfg.locationId
        c.desired c.available).1 = Except.ok ()) :
    (runMain cfg p now
      (applyWrites grid ((runMain cfg p now grid).pendingWrites ++
        (runMain cfg p now grid).outcomeWrites))).candidates = [] := by
  by_cases h2 : grid.length < 2
  · have hr : runMain cfg p now grid = ⟨[], [], [], []⟩ := by
      rw [runMain, if_pos h2]
    rw [hr]
    show (runMain cfg p now (applyWrites grid [])).candidates = []
    rw [show applyWrites grid [] = grid from rfl, runMain_candidates, if_pos h2]
  · by_cases hsc : scanCandidates cfg.maxRowsPerRun grid = []
    · have hr : runMain cfg p now grid = ⟨[], [], [], []⟩ := by
        rw [runMain, if_neg h2]
        simp [hsc]
      rw [hr]
      show (runMain cfg p now (applyWrites grid [])).candidates = []
      rw [show applyWrites grid [] = grid from rfl, runMain_candidates, if_neg h2]
      exact hsc
    · have hscan : scanCandidates cfg.maxRowsPerRun grid = scanAll (grid.drop 1) 1 := by
        rw [hmax]
        exact scanLoop_eq_scanAll (grid.drop 1) 0 1 (by simpa [countEligible] using hno)
      have hne3 : (runMain cfg p now grid).candidates ≠ [] := by
        rw [runMain_candidates, if_neg h2]
        exact hsc
      obtain ⟨_, _, heq⟩ := runMain_of_ne hne3
      have hpend : (runMain cfg p now grid).pendingWrites =
          pendingOf (scanCandidates cfg.maxRowsPerRun grid) := by rw [heq]
      have hout : (runMain cfg p now grid).outcomeWrites =
          outcomesOf cfg p now (scanCandidates cfg.maxRowsPerRun grid) := by rw [heq]
      have hcand : (runMain cfg p now grid).candidates =
          scanCandidates cfg.maxRowsPerRun grid := by rw [heq]
      rw [hpend, hout]
      set W := pendingOf (scanCandidates cfg.maxRowsPerRun grid) ++
        outcomesOf cfg p now (scanCandidates cfg.maxRowsPerRun grid) with hW
      have hpair := scanCandidates_pairwise cfg.maxRowsPerRun grid
      have hrows : ∀ w ∈ W, ∃ c2 ∈ scanCandidates cfg.maxRowsPerRun grid,
          w.row1 = c2.rowIndex1Based := by
        intro w hw
        rw [hW] at hw
        rcases List.mem_append.mp hw with hw2 | hw2
        · exact pendingOf_rows _ w hw2
        · exact outcomesOf_rows cfg p now _ w hw2
      have hbound : ∀ w ∈ W, w.row1 - 1 < grid.length := by
        intro w hw
        obtain ⟨c2, hc2, hr2⟩ := hrows w hw
        have := (scanCandidates_row_facts hc2).2.1
        omega
      have hlen2 : (applyWrites grid W).length = grid.length := applyWrites_length W grid
      rw [runMain_candidates, if_neg (by rw [hlen2]; exact h2)]
      apply scanLoop_eq_nil
      apply scanAll_eq_nil
      intro k hk
      rw [getD_drop_one]
      have hk2 : k + 1 < grid.length := by
        simp only [List.length_drop, hlen2] at hk
        omega
      cases hcr : candidateOfRow (1 + k) (grid.getD (k + 1) []) with
      | some c =>
        have hmem : c ∈ scanAll (grid.drop 1) 1 := by
          refine (scanAll_mem_iff (grid.drop 1) 1).mpr ⟨k, ?_, ?_⟩
          · simp only [List.length_drop]
            omega
          · rw [getD_drop_one]
            exact hcr
        have hcs2 : c ∈ scanCandidates cfg.maxRowsPerRun grid := by
          rw [hscan]
          exact hmem
        have hrow : c.rowIndex1Based = k + 2 := by
          have := candidateOfRow_rowIndex hcr
          omega
        have hok := hsucc c (by rw [hcand]; exact hcs2)
        have h1all : ∀ c2 ∈ scanCandidates cfg.maxRowsPerRun grid,
            1 ≤ c2.rowIndex1Based := by
          intro c2 h
          have := (scanCandidates_row_facts h).1
          omega
        have hflat := lastWriteTo_flatMap (outcomeFor_rows cfg p now) 4 hpair h1all hcs2
        have hlast : lastWriteTo W (c.rowIndex1Based - 1) 4 = some "" := by
          rw [hW]
          apply lastWriteTo_append_some
          rw [outcomesOf, hflat]
          simp only [outcomeFor, hok]
          simp [lastWriteTo, successWrites, colIndex]
        have hidx : c.rowIndex1Based - 1 = k + 1 := by omega
        rw [hidx] at hlast
        have hcell : cellOf (applyWrites grid W) (k + 1) 4 = CellVal.str "" := by
          rw [cellOf_applyWrites W grid (k + 1) 4 hbound, hlast]
          rfl
        have hdes : normalizeInt (((applyWrites grid W).getD (k + 1) []).getD 4 CellVal.empty)
            = none := by
          rw [show ((applyWrites grid W).getD (k + 1) []).getD 4 CellVal.empty =
            cellOf (applyWrites grid W) (k + 1) 4 from rfl, hcell]
          decide
        simp only [candidateOfRow, hdes]
        cases itemIdOfCell (((applyWrites grid W).getD (k + 1) []).getD 9 CellVal.empty) <;>
          rfl
      | none =>
        have hnorow : ∀ w ∈ W, w.row1 - 1 ≠ k + 1 := by
          intro w hw he
          obtain ⟨c2, hc2, hr2⟩ := hrows w hw
          have hge2 := (scanCandidates_row_facts hc2).1
          have hc2a : c2 ∈ scanAll (grid.drop 1) 1 := by
            rw [← hscan]
            exact hc2
          obtain ⟨k2, hk2b, hck2⟩ := (scanAll_mem_iff (grid.drop 1) 1).mp hc2a
          have hrowc2 := candidateOfRow_rowIndex hck2
          have hkk : k2 = k := by omega
          subst hkk
          rw [getD_drop_one, hcr] at hck2
          exact Option.noConfusion hck2
        have hcell : ∀ col, cellOf (applyWrites grid W) (k + 1) col =
            cellOf grid (k + 1) col := by
          intro col
          rw [cellOf_applyWrites W grid (k + 1) col hbound,
            lastWriteTo_eq_none (fun w hw hand => hnorow w hw hand.1)]
          rfl
        have hcand2 : candidateOfRow (1 + k) ((applyWrites grid W).getD (k + 1) []) =
            candidateOfRow (1 + k) (grid.getD (k + 1) []) :=
          candidateOfRow_congr (1 + k) (hcell 4) (hcell 5) (hcell 9)
        rw [hcand2, hcr]

/-- C5 witness: the amended idempotence on a concrete two-candidate run
that is not truncated. -/
theorem c5_witness :
    (runMain (demoConfig 50) pAllOk "T"
        (applyWrites demoGrid2
          ((runMain (demoConfig 50) pAllOk "T" demoGrid2).pendingWrites ++
           (runMain (demoConfig 50) pAllOk "T" demoGrid2).outcomeWrites))).candidates = [] :=
  c5_idempotent (demoConfig 50) pAllOk "T" demoGrid2 50 rfl (by decide)
    (fun c hc => by
      rw [show (runMain (demoConfig 50) pAllOk "T" demoGrid2).candidates =
        [⟨2, "gid1", 7, 10⟩, ⟨3, "gid2", 3, 9⟩] from by decide] at hc
      simp only [List.mem_cons, List.not_mem_nil, or_false] at hc
      rcases hc with rfl | rfl <;> rfl)

/-- An environment with only the four identifiers main requires; the sheet
name and the per-run maximum are absent. -/
def env4 : String → Option String := fun name =>
  if name = "SPREADSHEET_ID" then some "sid"
  else if name = "SHOPIFY_STORE_DOMAIN" then some "dom"
  else if name = "SHOPIFY_LOCATION_ID" then some "locid"
  else if name = "SHOPIFY_ADMIN_TOKEN" then some "tok"
  else none

/-- C7 counterexample: with the sheet name and the per-run maximum both
absent from the environment, main does not fail: the preflight passes and
the run completes normally on a one-candidate snapshot, using the
defaults Truth_Table and 50. -/
theorem c7_counterexample :
    env4 "SHEET_NAME" = none ∧ env4 "MAX_ROWS_PER_RUN" = none ∧
    (configOfEnv env4).sheetName = "Truth_Table" ∧
    (configOfEnv env4).maxRowsPerRun = some (JsNum.ofNat 50) ∧
    mainRun env4 pAllOk "T" demoGrid1 =
      Except.ok
        ⟨[⟨2, "gid1", 7, 10⟩],
         [⟨Col.status, 2, "PENDING"⟩],
         [⟨Col.status, 2, ""⟩, ⟨Col.lastPushedAt, 2, "T"⟩,
          ⟨Col.lastError, 2, ""⟩, ⟨Col.desired, 2, ""⟩],
         [Event.batchWrite [⟨Col.status, 2, "PENDING"⟩],
          Event.attempt "gid1" 7 10,
          Event.batchWrite [⟨Col.status, 2, ""⟩, ⟨Col.lastPushedAt, 2, "T"⟩,
            ⟨Col.lastError, 2, ""⟩, ⟨Col.desired, 2, ""⟩]]⟩ := by
  refine ⟨rfl, rfl, rfl, by decide, ?_⟩
  rfl

/-- C7 amended: the four platform and sheet identifiers are required: when
any of SPREADSHEET_ID, SHOPIFY_STORE_DOMAIN, SHOPIFY_LOCATION_ID,
SHOPIFY_ADMIN_TOKEN is absent or empty, main throws the missing-variable
error of the first such variable in check order, before the snapshot is
consulted (the result does not depend on the grid, the platform, or the
time); SHEET_NAME and MAX_ROWS_PER_RUN are not required and default
instead. -/
theorem c7_required_env (env : String → Option String) (p : String → ItemPlatform)
    (now : String) (grid : List (List CellVal))
    (h : envMissing env "SPREADSHEET_ID" = true ∨
         envMissing env "SHOPIFY_STORE_DOMAIN" = true ∨
         envMissing env "SHOPIFY_LOCATION_ID" = true ∨
         envMissing env "SHOPIFY_ADMIN_TOKEN" = true) :
    mainRun env p now grid = Except.error ("Missing env var: " ++ firstMissingEnv env) := by
  by_cases h1 : envMissing env "SPREADSHEET_ID" = true
  · rw [mainRun, preflight, requireEnv_of_missing h1, firstMissingEnv, if_pos h1]
  · obtain ⟨v1, hv1⟩ := requireEnv_of_present (by simpa using h1)
    by_cases hb : envMissing env "SHOPIFY_STORE_DOMAIN" = true
    · rw [mainRun, preflight, hv1, requireEnv_of_missing hb, firstMissingEnv,
        if_neg h1, if_pos hb]
    · obtain ⟨v2, hv2⟩ := requireEnv_of_present (by simpa using hb)
      by_cases hl : envMissing env "SHOPIFY_LOCATION_ID" = true
      · rw [mainRun, preflight, hv1, hv2, requireEnv_of_missing hl, firstMissingEnv,
          if_neg h1, if_neg hb, if_pos hl]
      · obtain ⟨v3, hv3⟩ := requireEnv_of_present (by simpa using hl)
        by_cases ht : envMissing env "SHOPIFY_ADMIN_TOKEN" = true
        · rw [mainRun, preflight, hv1, hv2, hv3, requireEnv_of_missing ht,
            firstMissingEnv, if_neg h1, if_neg hb, if_neg hl]
        · rcases h with h | h | h | h
          · exact absurd h h1
          · exact absurd h hb
          · exact absurd h hl
          · exact absurd h ht

/-- C7 witness: an entirely empty environment fails with the first missing
variable. -/
theorem c7_witness :
    mainRun (fun _ => none) pAllOk "T" demoGrid1 =
      Except.error ("Missing env var: " ++ firstMissingEnv (fun _ => none)) :=
  c7_required_env (fun _ => none) pAllOk "T" demoGrid1 (Or.inl rfl)

end ReverseSync
